import Mathlib

/-!
Shallow embedding of the workspace coordinator of the typescript-atomizer
repository (src/typescript-atomizer-plugin/lib/TypeScriptWorkspace.ts).

Editor-state objects are mutable in the original; here they live in an
explicit heap (a list of reference/state pairs) and every mutation is an
in-place functional update at a reference, so that the aliasing between
the identifier-to-state mapping and the transient active-state pointer is
preserved.  Fallible operations (dereferences of a possibly undefined
value in the original) return Option: a none result models the crash.
JavaScript object-property assignment is modelled as prepending to an
association list with first-match lookup, which is observationally
equivalent because the original only ever reads entries via indexing.
Each handler also returns a list of log entries recording the externally
visible calls it makes (calls on editor-state objects, status-bar calls,
key-binding and propagation control, timer control); each call on an
editor-state object records whether that object was already disposed at
the moment of the call.
-/

namespace TypeScriptAtomizer

/-- A tooltip shown in a TypeScript text editor: either a diagnostic message
or a quick-info record, each associated with a buffer position. -/
inductive Tooltip
  | diagnostic (messageText : String) (bufferPosition : Nat)
  | quickInfo (info : String) (bufferPosition : Nat)
deriving DecidableEq

/-- First-match lookup in an association list keyed by Nat. -/
def assocLookup {A : Type} (l : List (Nat × A)) (k : Nat) : Option A :=
  match l with
  | [] => none
  | p :: rest => if p.1 = k then some p.2 else assocLookup rest k

/-- JavaScript object-property assignment, observed only through
assocLookup: prepend the new binding. -/
def assocSet {A : Type} (l : List (Nat × A)) (k : Nat) (v : A) :
    List (Nat × A) :=
  (k, v) :: l

/-- A generic Atom text editor handle as delivered by the focus-changed
stream: an identifier together with the name of its grammar. -/
structure TextEditor where
  id : Nat
  grammarName : String
deriving DecidableEq

/-- A TypeScript text editor handle as delivered by the opened stream.
Modelled from the spec: the quick-info query interface of the editor
(getQuickInfoForBufferPosition, declared on TypeScriptTextEditor which is
not under src/) returns an optional quick-info record for a buffer
position; it is embedded as an association table from positions to
quick-info strings.  The diagnostics the editor currently produces seed
the diagnostic query table of its state, and initialInError seeds the
in-error flag of the state. -/
structure TypeScriptTextEditor where
  id : Nat
  quickInfos : List (Nat × String)
  diagnostics : List (Nat × String)
  initialInError : Bool
deriving DecidableEq

/-- Modelled from the spec: TypeScriptTextEditorState
(lib/state/TypeScriptTextEditorState.ts, not under src/) holds the
auto-complete, diagnostic and tooltip state for one open editor.  Tracked
fields: the contents-changing data slot, whether an auto-complete session
is in progress, whether the state is activated, whether it has been
disposed, the current tooltip, the in-error flag and the diagnostic query
table. -/
structure TypeScriptTextEditorState where
  contentsChanging : Bool
  autoCompleteInProgress : Bool
  activated : Bool
  disposed : Bool
  tooltip : Option Tooltip
  inError : Bool
  diagnostics : List (Nat × String)
deriving DecidableEq

/-- Modelled from the spec: activate marks the state as the active one. -/
def TypeScriptTextEditorState.activate (s : TypeScriptTextEditorState) :
    TypeScriptTextEditorState :=
  { s with activated := true }

/-- Modelled from the spec: deactivate clears the active marking. -/
def TypeScriptTextEditorState.deactivate (s : TypeScriptTextEditorState) :
    TypeScriptTextEditorState :=
  { s with activated := false }

/-- Modelled from the spec: dispose releases the state; the object itself
survives (references to it may remain) but is marked disposed. -/
def TypeScriptTextEditorState.dispose (s : TypeScriptTextEditorState) :
    TypeScriptTextEditorState :=
  { s with disposed := true }

/-- Modelled from the spec: toggleAutoComplete enters the auto-complete
session when none is in progress and exits it otherwise. -/
def TypeScriptTextEditorState.toggleAutoComplete (s : TypeScriptTextEditorState) :
    TypeScriptTextEditorState :=
  { s with autoCompleteInProgress := !s.autoCompleteInProgress }

/-- Modelled from the spec: confirming the current auto-complete item acts
inside the auto-complete view; it does not affect the fields tracked here. -/
def TypeScriptTextEditorState.confirmAutoCompleteItem (s : TypeScriptTextEditorState) :
    TypeScriptTextEditorState :=
  s

/-- Modelled from the spec: selecting the next auto-complete item acts
inside the auto-complete view; it does not affect the fields tracked here. -/
def TypeScriptTextEditorState.selectNextAutoCompleteItem (s : TypeScriptTextEditorState) :
    TypeScriptTextEditorState :=
  s

/-- Modelled from the spec: selecting the previous auto-complete item acts
inside the auto-complete view; it does not affect the fields tracked here. -/
def TypeScriptTextEditorState.selectPreviousAutoCompleteItem (s : TypeScriptTextEditorState) :
    TypeScriptTextEditorState :=
  s

/-- Modelled from the spec: setTooltip displays the given tooltip. -/
def TypeScriptTextEditorState.setTooltip (t : Tooltip)
    (s : TypeScriptTextEditorState) : TypeScriptTextEditorState :=
  { s with tooltip := some t }

/-- Modelled from the spec: removeTooltip clears any tooltip. -/
def TypeScriptTextEditorState.removeTooltip (s : TypeScriptTextEditorState) :
    TypeScriptTextEditorState :=
  { s with tooltip := none }

/-- Modelled from the spec: updateFromContentChange recomputes internal
diagnostic context; it does not affect the fields tracked here. -/
def TypeScriptTextEditorState.updateFromContentChange (s : TypeScriptTextEditorState) :
    TypeScriptTextEditorState :=
  s

/-- Modelled from the spec: updateFromCursorPosition recomputes the
auto-complete and diagnostic context; it does not affect the fields
tracked here. -/
def TypeScriptTextEditorState.updateFromCursorPosition (s : TypeScriptTextEditorState) :
    TypeScriptTextEditorState :=
  s

/-- Modelled from the spec: the diagnostic query interface of the state
returns an optional diagnostic for a buffer position. -/
def TypeScriptTextEditorState.getDiagnosticForBufferPosition
    (s : TypeScriptTextEditorState) (bufferPosition : Nat) : Option String :=
  assocLookup s.diagnostics bufferPosition

/-- Quick-info query of the editor (see TypeScriptTextEditor above). -/
def TypeScriptTextEditor.getQuickInfoForBufferPosition
    (e : TypeScriptTextEditor) (bufferPosition : Nat) : Option String :=
  assocLookup e.quickInfos bufferPosition

/-- Modelled from the spec: TypeScriptDiagnosticStatusBar (not under src/)
is the status indicator; it carries a visibility flag (hide and show) and
mirrors the in-error flag of the active state. -/
structure TypeScriptDiagnosticStatusBar where
  visible : Bool
  inError : Bool
deriving DecidableEq

/-- The editor-state methods named by handler call logs. -/
inductive StateMethod
  | activate
  | deactivate
  | dispose
  | toggleAutoComplete
  | confirmAutoCompleteItem
  | selectNextAutoCompleteItem
  | selectPreviousAutoCompleteItem
  | setTooltip
  | removeTooltip
  | updateFromContentChange
  | updateFromCursorPosition
deriving DecidableEq

/-- Externally visible calls a handler makes, in order.  A stateCall entry
records the heap reference of the editor-state object the method is
invoked on and whether that object was already disposed at call time. -/
inductive LogEntry
  | stateCall (ref : Nat) (method : StateMethod) (disposedAtCall : Bool)
  | statusBarHide
  | statusBarShow
  | abortKeyBinding
  | stopPropagation
  | intervalStarted (ref : Nat)
  | intervalCleared (ref : Nat)
deriving DecidableEq

/-- In-place update of the entry with the given key (mutation of the heap
object at a reference). -/
def heapSet (l : List (Nat × TypeScriptTextEditorState)) (r : Nat)
    (f : TypeScriptTextEditorState → TypeScriptTextEditorState) :
    List (Nat × TypeScriptTextEditorState) :=
  l.map (fun p => if p.1 = r then (p.1, f p.2) else p)

/-- The TypeScriptWorkspace coordinator.  textEditorStates is the
identifier-to-state mapping (values are heap references; a some none entry
is a key assigned undefined); stateHeap holds the editor-state objects;
activeTextEditorState is the transient pointer to the state of the
currently focused editor; openedEditors records the editor handles whose
per-editor streams were subscribed on open; pendingToggleRefs records
states with a deferred auto-complete toggle timer running. -/
structure TypeScriptWorkspace where
  textEditorStates : List (Nat × Option Nat)
  stateHeap : List (Nat × TypeScriptTextEditorState)
  nextStateRef : Nat
  activeTextEditorState : Option Nat
  statusBar : Option TypeScriptDiagnosticStatusBar
  openedEditors : List (Nat × TypeScriptTextEditor)
  pendingToggleRefs : List Nat
deriving DecidableEq

/-- The coordinator right after construction: empty mapping, no active
state, status bar not yet constructed. -/
def initialWorkspace : TypeScriptWorkspace :=
  { textEditorStates := []
    stateHeap := []
    nextStateRef := 0
    activeTextEditorState := none
    statusBar := none
    openedEditors := []
    pendingToggleRefs := [] }

/-- The flattened read this._textEditorStates[id]: an absent key and a key
assigned undefined are both undefined. -/
def TypeScriptWorkspace.lookupStateRef (w : TypeScriptWorkspace)
    (editorId : Nat) : Option Nat :=
  (assocLookup w.textEditorStates editorId).bind (fun x => x)

/-- The editor-state object a heap reference denotes. -/
def stateAt (w : TypeScriptWorkspace) (r : Nat) :
    Option TypeScriptTextEditorState :=
  assocLookup w.stateHeap r

/-- Whether the heap object at a reference is already disposed. -/
def TypeScriptWorkspace.isDisposed (w : TypeScriptWorkspace) (r : Nat) : Bool :=
  match stateAt w r with
  | some s => s.disposed
  | none => false

/-- Mutate the editor-state object at a heap reference. -/
def TypeScriptWorkspace.applyToState (w : TypeScriptWorkspace) (r : Nat)
    (f : TypeScriptTextEditorState → TypeScriptTextEditorState) :
    TypeScriptWorkspace :=
  { w with stateHeap := heapSet w.stateHeap r f }

/-- getStatusBar, construction part (lines 293 to 314): on first use the
status bar model is constructed and its view attached; afterwards the
cached instance is returned.  The view wiring has no observable effect on
the model. -/
def TypeScriptWorkspace.ensureStatusBar (w : TypeScriptWorkspace) :
    TypeScriptWorkspace :=
  match w.statusBar with
  | some _ => w
  | none => { w with statusBar := some { visible := false, inError := false } }

/-- statusBar.hide() on the constructed status bar. -/
def TypeScriptWorkspace.hideStatusBar (w : TypeScriptWorkspace) :
    TypeScriptWorkspace :=
  { w with statusBar := w.statusBar.map (fun sb => { sb with visible := false }) }

/-- updateStatusBar (lines 279 to 286): fetch the status bar, copy the
in-error flag of the supplied state onto it, and show it. -/
def TypeScriptWorkspace.updateStatusBar (w : TypeScriptWorkspace)
    (state : TypeScriptTextEditorState) : TypeScriptWorkspace :=
  let w1 := w.ensureStatusBar
  { w1 with
      statusBar := w1.statusBar.map
        (fun sb => { sb with inError := state.inError, visible := true }) }

/-- onTypeScriptTextEditorOpened (lines 96 to 117): create a fresh state for
the opened editor with the contents-changing slot initialised to false,
store it under the editor identifier, and subscribe to the per-editor
streams (recorded by remembering the editor handle). -/
def TypeScriptWorkspace.onTypeScriptTextEditorOpened (w : TypeScriptWorkspace)
    (typescriptTextEditor : TypeScriptTextEditor) :
    TypeScriptWorkspace × List LogEntry :=
  let st : TypeScriptTextEditorState :=
    { contentsChanging := false
      autoCompleteInProgress := false
      activated := false
      disposed := false
      tooltip := none
      inError := typescriptTextEditor.initialInError
      diagnostics := typescriptTextEditor.diagnostics }
  let r := w.nextStateRef
  ({ w with
      stateHeap := (r, st) :: w.stateHeap
      nextStateRef := r + 1
      textEditorStates := assocSet w.textEditorStates typescriptTextEditor.id (some r)
      openedEditors := assocSet w.openedEditors typescriptTextEditor.id typescriptTextEditor },
   [])

/-- The tail of onTextEditorChanged (lines 137 to 142), after the previous
active state has been deactivated into w2 with call log log2: look up the
state for the focused editor, install it as the active state, activate it,
and update the status bar from it.  The lookup result is assigned to the
active pointer unconditionally; calling activate on an undefined state is
a crash (none). -/
def TypeScriptWorkspace.activateFocusedState (w2 : TypeScriptWorkspace)
    (log2 : List LogEntry) (editorId : Nat) :
    Option (TypeScriptWorkspace × List LogEntry) :=
  match w2.lookupStateRef editorId with
  | none => none
  | some r =>
    let w3 := { w2 with activeTextEditorState := some r }
    let w4 := w3.applyToState r TypeScriptTextEditorState.activate
    match stateAt w4 r with
    | none => none
    | some st =>
      some (w4.updateStatusBar st,
            log2 ++ [LogEntry.stateCall r StateMethod.activate (w3.isDisposed r),
                     LogEntry.statusBarShow])

/-- onTextEditorChanged (lines 124 to 143): fetch the status bar; if the
focused editor is undefined or its grammar is not TypeScript, hide the
status bar and return.  Otherwise deactivate the previously active state
if any, then activate the state of the focused editor (see
activateFocusedState). -/
def TypeScriptWorkspace.onTextEditorChanged (w : TypeScriptWorkspace)
    (textEditor : Option TextEditor) :
    Option (TypeScriptWorkspace × List LogEntry) :=
  let w1 := w.ensureStatusBar
  match textEditor with
  | none => some (w1.hideStatusBar, [LogEntry.statusBarHide])
  | some ed =>
    if ed.grammarName ≠ "TypeScript" then
      some (w1.hideStatusBar, [LogEntry.statusBarHide])
    else
      match w1.activeTextEditorState with
      | some r0 =>
        (w1.applyToState r0 TypeScriptTextEditorState.deactivate).activateFocusedState
          [LogEntry.stateCall r0 StateMethod.deactivate (w1.isDisposed r0)] ed.id
      | none => w1.activateFocusedState [] ed.id

/-- onTypeScriptTextEditorContentsChanging (lines 150 to 155): set the
contents-changing data slot of the state of the given editor to true. -/
def TypeScriptWorkspace.onTypeScriptTextEditorContentsChanging
    (w : TypeScriptWorkspace) (editorId : Nat) :
    Option (TypeScriptWorkspace × List LogEntry) :=
  match w.lookupStateRef editorId with
  | none => none
  | some r =>
    some (w.applyToState r (fun s => { s with contentsChanging := true }), [])

/-- onTypeScriptTextEditorContentsChanged (lines 162 to 170): clear the
contents-changing slot, ask the state to recompute from the change, and
update the status bar from it. -/
def TypeScriptWorkspace.onTypeScriptTextEditorContentsChanged
    (w : TypeScriptWorkspace) (editorId : Nat) :
    Option (TypeScriptWorkspace × List LogEntry) :=
  match w.lookupStateRef editorId with
  | none => none
  | some r =>
    let w1 := w.applyToState r
      (fun s => TypeScriptTextEditorState.updateFromContentChange
        { s with contentsChanging := false })
    match stateAt w1 r with
    | none => none
    | some st =>
      some (w1.updateStatusBar st,
            [LogEntry.stateCall r StateMethod.updateFromContentChange (w.isDisposed r),
             LogEntry.statusBarShow])

/-- onMouseHoverPositionChanged (lines 172 to 200): with no buffer position
the tooltip is removed; with an auto-complete session in progress nothing
is done; otherwise a diagnostic at the position wins, then quick-info,
otherwise the tooltip is removed.  Every branch dereferences the state, so
an unregistered editor identifier is a crash (none). -/
def TypeScriptWorkspace.onMouseHoverPositionChanged (w : TypeScriptWorkspace)
    (typescriptTextEditor : TypeScriptTextEditor) (bufferPosition : Option Nat) :
    Option (TypeScriptWorkspace × List LogEntry) :=
  match w.lookupStateRef typescriptTextEditor.id with
  | none => none
  | some r =>
    match stateAt w r with
    | none => none
    | some st =>
      match bufferPosition with
      | none =>
        some (w.applyToState r TypeScriptTextEditorState.removeTooltip,
              [LogEntry.stateCall r StateMethod.removeTooltip st.disposed])
      | some p =>
        if st.autoCompleteInProgress then
          some (w, [])
        else
          match st.getDiagnosticForBufferPosition p with
          | some messageText =>
            some (w.applyToState r
                    (TypeScriptTextEditorState.setTooltip (Tooltip.diagnostic messageText p)),
                  [LogEntry.stateCall r StateMethod.setTooltip st.disposed])
          | none =>
            match typescriptTextEditor.getQuickInfoForBufferPosition p with
            | some info =>
              some (w.applyToState r
                      (TypeScriptTextEditorState.setTooltip (Tooltip.quickInfo info p)),
                    [LogEntry.stateCall r StateMethod.setTooltip st.disposed])
            | none =>
              some (w.applyToState r TypeScriptTextEditorState.removeTooltip,
                    [LogEntry.stateCall r StateMethod.removeTooltip st.disposed])

/-- onCursorPositionChanged (lines 207 to 212): forward the transition to
the state of the editor. -/
def TypeScriptWorkspace.onCursorPositionChanged (w : TypeScriptWorkspace)
    (editorId : Nat) : Option (TypeScriptWorkspace × List LogEntry) :=
  match w.lookupStateRef editorId with
  | none => none
  | some r =>
    some (w.applyToState r TypeScriptTextEditorState.updateFromCursorPosition,
          [LogEntry.stateCall r StateMethod.updateFromCursorPosition (w.isDisposed r)])

/-- onTypeScriptTextEditorClosed (lines 219 to 226): dispose the state of
the closed editor and assign undefined to its mapping entry.  The active
pointer is not touched. -/
def TypeScriptWorkspace.onTypeScriptTextEditorClosed (w : TypeScriptWorkspace)
    (editorId : Nat) : Option (TypeScriptWorkspace × List LogEntry) :=
  match w.lookupStateRef editorId with
  | none => none
  | some r =>
    let w1 := w.applyToState r TypeScriptTextEditorState.dispose
    some ({ w1 with textEditorStates := assocSet w1.textEditorStates editorId none },
          [LogEntry.stateCall r StateMethod.dispose (w.isDisposed r)])

/-- The four auto-complete commands guarded by withAutoCompleteInProgress,
with the state method each invokes (constructor, lines 55 to 69). -/
inductive AutoCompleteCommand
  | dismiss
  | confirm
  | selectNext
  | selectPrevious
deriving DecidableEq

/-- The state method a guarded auto-complete command invokes. -/
def AutoCompleteCommand.method : AutoCompleteCommand → StateMethod
  | .dismiss => StateMethod.toggleAutoComplete
  | .confirm => StateMethod.confirmAutoCompleteItem
  | .selectNext => StateMethod.selectNextAutoCompleteItem
  | .selectPrevious => StateMethod.selectPreviousAutoCompleteItem

/-- The state transformation a guarded auto-complete command performs. -/
def AutoCompleteCommand.run :
    AutoCompleteCommand → TypeScriptTextEditorState → TypeScriptTextEditorState
  | .dismiss, s => s.toggleAutoComplete
  | .confirm, s => s.confirmAutoCompleteItem
  | .selectNext, s => s.selectNextAutoCompleteItem
  | .selectPrevious, s => s.selectPreviousAutoCompleteItem

/-- withAutoCompleteInProgress (lines 235 to 248): look up the state of the
currently focused editor (crash when the focused editor is undefined and
crash when its identifier is unregistered, since the original reads
autoCompleteInProgress with no existence check); when no auto-complete
session is in progress, abort the key binding and return; otherwise stop
propagation and invoke the callback once with the state. -/
def TypeScriptWorkspace.withAutoCompleteInProgress (w : TypeScriptWorkspace)
    (activeTextEditor : Option TextEditor) (command : AutoCompleteCommand) :
    Option (TypeScriptWorkspace × List LogEntry) :=
  match activeTextEditor with
  | none => none
  | some ed =>
    match w.lookupStateRef ed.id with
    | none => none
    | some r =>
      match stateAt w r with
      | none => none
      | some st =>
        if st.autoCompleteInProgress = false then
          some (w, [LogEntry.abortKeyBinding])
        else
          some (w.applyToState r command.run,
                [LogEntry.stopPropagation,
                 LogEntry.stateCall r command.method st.disposed])

/-- onToggleAutoComplete (lines 253 to 271): crash when no editor is
focused; abort the key binding when the focused editor is not TypeScript;
otherwise stop propagation and either toggle the session off immediately
when one is in progress, or start the deferred-toggle interval timer. -/
def TypeScriptWorkspace.onToggleAutoComplete (w : TypeScriptWorkspace)
    (activeTextEditor : Option TextEditor) :
    Option (TypeScriptWorkspace × List LogEntry) :=
  match activeTextEditor with
  | none => none
  | some textEditor =>
    if textEditor.grammarName ≠ "TypeScript" then
      some (w, [LogEntry.abortKeyBinding])
    else
      match w.lookupStateRef textEditor.id with
      | none => none
      | some r =>
        match stateAt w r with
        | none => none
        | some st =>
          if st.autoCompleteInProgress then
            some (w.applyToState r TypeScriptTextEditorState.toggleAutoComplete,
                  [LogEntry.stopPropagation,
                   LogEntry.stateCall r StateMethod.toggleAutoComplete st.disposed])
          else
            some ({ w with pendingToggleRefs := w.pendingToggleRefs ++ [r] },
                  [LogEntry.stopPropagation, LogEntry.intervalStarted r])

/-- The moment a pending deferred-toggle interval fires (the tick of
executeAfterContentChange whose condition holds): the deferred function
runs (toggling the session), the contents-changing slot is cleared
defensively, and the interval is cleared.  The tick-counting itself is
embedded separately as executeAfterContentChange below. -/
def TypeScriptWorkspace.deferredToggleFired (w : TypeScriptWorkspace) (r : Nat) :
    TypeScriptWorkspace × List LogEntry :=
  if r ∈ w.pendingToggleRefs then
    ({ w.applyToState r
          (fun s => { s.toggleAutoComplete with contentsChanging := false }) with
        pendingToggleRefs := w.pendingToggleRefs.erase r },
     [LogEntry.stateCall r StateMethod.toggleAutoComplete (w.isDisposed r),
      LogEntry.intervalCleared r])
  else (w, [])

/-- The events the coordinator can process: the two constructor stream
subscriptions, the per-editor stream subscriptions made on open, the
registered commands (which read the currently focused editor from the
host, carried here in the event), and the firing of a pending
deferred-toggle interval. -/
inductive WorkspaceEvent
  | typeScriptTextEditorOpened (typescriptTextEditor : TypeScriptTextEditor)
  | textEditorChanged (textEditor : Option TextEditor)
  | contentsChanging (editorId : Nat)
  | contentsChanged (editorId : Nat)
  | mouseHoverPositionChanged (editorId : Nat) (bufferPosition : Option Nat)
  | cursorPositionChanged (editorId : Nat)
  | textEditorClosed (editorId : Nat)
  | toggleAutoCompleteCommand (activeTextEditor : Option TextEditor)
  | autoCompleteCommand (command : AutoCompleteCommand)
      (activeTextEditor : Option TextEditor)
  | deferredToggleFired (ref : Nat)
deriving DecidableEq

/-- Dispatch one event to its handler.  Per-editor events reach a handler
only when the editor was opened (its streams were subscribed); otherwise
no subscription exists and the event is not delivered. -/
def TypeScriptWorkspace.stepEvent (w : TypeScriptWorkspace) :
    WorkspaceEvent → Option (TypeScriptWorkspace × List LogEntry)
  | WorkspaceEvent.typeScriptTextEditorOpened tsEd =>
    some (w.onTypeScriptTextEditorOpened tsEd)
  | WorkspaceEvent.textEditorChanged textEditor => w.onTextEditorChanged textEditor
  | WorkspaceEvent.contentsChanging editorId =>
    match assocLookup w.openedEditors editorId with
    | some _ => w.onTypeScriptTextEditorContentsChanging editorId
    | none => some (w, [])
  | WorkspaceEvent.contentsChanged editorId =>
    match assocLookup w.openedEditors editorId with
    | some _ => w.onTypeScriptTextEditorContentsChanged editorId
    | none => some (w, [])
  | WorkspaceEvent.mouseHoverPositionChanged editorId bufferPosition =>
    match assocLookup w.openedEditors editorId with
    | some tsEd => w.onMouseHoverPositionChanged tsEd bufferPosition
    | none => some (w, [])
  | WorkspaceEvent.cursorPositionChanged editorId =>
    match assocLookup w.openedEditors editorId with
    | some _ => w.onCursorPositionChanged editorId
    | none => some (w, [])
  | WorkspaceEvent.textEditorClosed editorId =>
    match assocLookup w.openedEditors editorId with
    | some _ => w.onTypeScriptTextEditorClosed editorId
    | none => some (w, [])
  | WorkspaceEvent.toggleAutoCompleteCommand activeTextEditor =>
    w.onToggleAutoComplete activeTextEditor
  | WorkspaceEvent.autoCompleteCommand command activeTextEditor =>
    w.withAutoCompleteInProgress activeTextEditor command
  | WorkspaceEvent.deferredToggleFired ref => some (w.deferredToggleFired ref)

/-- Process a sequence of events; a crash in any handler aborts the run. -/
def runEvents (w : TypeScriptWorkspace) :
    List WorkspaceEvent → Option TypeScriptWorkspace
  | [] => some w
  | e :: es =>
    match w.stepEvent e with
    | none => none
    | some (w', _) => runEvents w' es

/-- Process a sequence of events, accumulating the logs of every step. -/
def runEventsWithLog (w : TypeScriptWorkspace) :
    List WorkspaceEvent → Option (TypeScriptWorkspace × List LogEntry)
  | [] => some (w, [])
  | e :: es =>
    match w.stepEvent e with
    | none => none
    | some (w', log) =>
      match runEventsWithLog w' es with
      | none => none
      | some (w'', logRest) => some (w'', log ++ logRest)

/-- The workspace component of an optional handler outcome. -/
def outcomeW (o : Option (TypeScriptWorkspace × List LogEntry)) :
    TypeScriptWorkspace :=
  (o.map Prod.fst).getD initialWorkspace

/-- The log component of an optional handler outcome. -/
def outcomeLog (o : Option (TypeScriptWorkspace × List LogEntry)) :
    List LogEntry :=
  (o.map Prod.snd).getD []

/-- The maxIntervals constant of executeAfterContentChange (line 326). -/
def maxIntervals : Nat := 50

/-- The interval period of executeAfterContentChange in time units
(line 337). -/
def pollIntervalPeriod : Nat := 2

/-- The outcome of the executeAfterContentChange interval when its
condition first holds: the one-based index of the tick on which the
deferred function was invoked, the value the contents-changing slot is
assigned right after, and whether the interval was cleared. -/
structure PollOutcome where
  fireTickIndex : Nat
  flagAfter : Bool
  intervalWasCleared : Bool
deriving DecidableEq

/-- The interval body of executeAfterContentChange (lines 328 to 337): on
each tick, if the contents-changing slot is false or the post-incremented
interval count exceeds maxIntervals, invoke the deferred function, assign
false to the slot and clear the interval; otherwise wait for the next
tick.  flagAt gives the value of the contents-changing slot read on each
tick (the slot may be changed between ticks by other handlers); fuel
bounds the recursion and is irrelevant once it exceeds the tick at which
the condition first holds. -/
def executeAfterContentChangeLoop (flagAt : Nat → Bool) (intervalCount : Nat)
    (tick : Nat) : Nat → Option PollOutcome
  | 0 => none
  | fuel + 1 =>
    if flagAt tick = false ∨ intervalCount > maxIntervals then
      some { fireTickIndex := tick, flagAfter := false, intervalWasCleared := true }
    else
      executeAfterContentChangeLoop flagAt (intervalCount + 1) (tick + 1) fuel

/-- executeAfterContentChange (lines 323 to 338): start the interval with
intervalCount zero; ticks are numbered from one, each pollIntervalPeriod
time units apart. -/
def executeAfterContentChange (flagAt : Nat → Bool) (fuel : Nat) :
    Option PollOutcome :=
  executeAfterContentChangeLoop flagAt 0 1 fuel

/-- A resource acquired during construction of the coordinator
(lines 38 to 81): the two stream subscriptions, the five command
registrations and the keymap registration. -/
inductive Acquisition
  | typeScriptTextEditorOpenedSubscription
  | textEditorChangedSubscription
  | command (commandName : String)
  | keymapBinding
deriving DecidableEq

/-- Everything the constructor acquires, in source order: the subscription
to the opened-editor stream and to the focus-changed stream (line 46 and
line 47, their handles discarded), the five command registrations
(lines 51 to 69) and the keymap registration (line 79). -/
def constructorAcquisitions : List Acquisition :=
  [Acquisition.typeScriptTextEditorOpenedSubscription,
   Acquisition.textEditorChangedSubscription,
   Acquisition.command "typescript-atomizer-autocomplete:toggle",
   Acquisition.command "typescript-atomizer-autocomplete:dismiss",
   Acquisition.command "typescript-atomizer-autocomplete:confirm",
   Acquisition.command "typescript-atomizer-autocomplete:select-next",
   Acquisition.command "typescript-atomizer-autocomplete:select-previous",
   Acquisition.keymapBinding]

/-- The acquisitions pushed onto the CompositeDisposable during
construction: only the command registrations and the keymap registration
are pushed; the two stream subscription handles are discarded. -/
def constructorDisposables : List Acquisition :=
  [Acquisition.command "typescript-atomizer-autocomplete:toggle",
   Acquisition.command "typescript-atomizer-autocomplete:dismiss",
   Acquisition.command "typescript-atomizer-autocomplete:confirm",
   Acquisition.command "typescript-atomizer-autocomplete:select-next",
   Acquisition.command "typescript-atomizer-autocomplete:select-previous",
   Acquisition.keymapBinding]

/-- dispose (lines 86 to 89) disposes the CompositeDisposable, releasing
exactly what was pushed onto it. -/
def disposeReleased : List Acquisition := constructorDisposables

/-- Whether an acquisition of the constructor is pushed onto the
CompositeDisposable. -/
def Acquisition.pushedToDisposables : Acquisition → Bool
  | Acquisition.typeScriptTextEditorOpenedSubscription => false
  | Acquisition.textEditorChangedSubscription => false
  | Acquisition.command _ => true
  | Acquisition.keymapBinding => true

/-- At most one editor-state object is marked active. -/
def AtMostOneActive (w : TypeScriptWorkspace) : Prop :=
  ∀ p ∈ w.stateHeap, ∀ q ∈ w.stateHeap,
    p.2.activated = true → q.2.activated = true → p = q

/-- The inductive invariant behind AtMostOneActive, on the heap, the
active pointer and the next fresh reference: every activated object is
the one the active pointer denotes, heap references are pairwise
distinct, and all references are below the fresh counter. -/
def ActiveInvariantOn (heap : List (Nat × TypeScriptTextEditorState))
    (ptr : Option Nat) (nextRef : Nat) : Prop :=
  (∀ p ∈ heap, p.2.activated = true → ptr = some p.1)
  ∧ (heap.map Prod.fst).Nodup
  ∧ (∀ p ∈ heap, p.1 < nextRef)

/-- The inductive invariant, read off a workspace. -/
def ActiveInvariant (w : TypeScriptWorkspace) : Prop :=
  ActiveInvariantOn w.stateHeap w.activeTextEditorState w.nextStateRef

/-- A fallback editor-state value for reading concrete run results. -/
def defaultEditorState : TypeScriptTextEditorState :=
  { contentsChanging := false
    autoCompleteInProgress := false
    activated := false
    disposed := false
    tooltip := none
    inError := false
    diagnostics := [] }

/-- A concrete TypeScript editor with both a diagnostic and a quick-info
record at buffer position five, and a quick-info-only position seven. -/
def tsEditorOne : TypeScriptTextEditor :=
  { id := 1
    quickInfos := [(5, "quick"), (7, "quickOnly")]
    diagnostics := [(5, "diag")]
    initialInError := false }

/-- A second concrete TypeScript editor with no diagnostics. -/
def tsEditorTwo : TypeScriptTextEditor :=
  { id := 2, quickInfos := [], diagnostics := [], initialInError := false }

/-- The focus handle of the first editor. -/
def editorHandleOne : TextEditor := { id := 1, grammarName := "TypeScript" }

/-- The focus handle of the second editor. -/
def editorHandleTwo : TextEditor := { id := 2, grammarName := "TypeScript" }

/-- Open the first editor, focus it, then focus an undefined editor. -/
def eventsFocusAway : List WorkspaceEvent :=
  [WorkspaceEvent.typeScriptTextEditorOpened tsEditorOne,
   WorkspaceEvent.textEditorChanged (some editorHandleOne),
   WorkspaceEvent.textEditorChanged none]

/-- The workspace after eventsFocusAway. -/
def wFocusAway : TypeScriptWorkspace :=
  (runEvents initialWorkspace eventsFocusAway).getD initialWorkspace

/-- Open the first editor, focus it, close it while focused, open the
second editor, focus the second editor. -/
def eventsCloseActive : List WorkspaceEvent :=
  [WorkspaceEvent.typeScriptTextEditorOpened tsEditorOne,
   WorkspaceEvent.textEditorChanged (some editorHandleOne),
   WorkspaceEvent.textEditorClosed 1,
   WorkspaceEvent.typeScriptTextEditorOpened tsEditorTwo,
   WorkspaceEvent.textEditorChanged (some editorHandleTwo)]

/-- The workspace after eventsCloseActive. -/
def wCloseActive : TypeScriptWorkspace :=
  ((runEventsWithLog initialWorkspace eventsCloseActive).map Prod.fst).getD
    initialWorkspace

/-- The accumulated log of eventsCloseActive. -/
def logCloseActive : List LogEntry :=
  ((runEventsWithLog initialWorkspace eventsCloseActive).map Prod.snd).getD []

/-- Open the first editor and focus it. -/
def eventsOpenFocusOne : List WorkspaceEvent :=
  [WorkspaceEvent.typeScriptTextEditorOpened tsEditorOne,
   WorkspaceEvent.textEditorChanged (some editorHandleOne)]

/-- The workspace after eventsOpenFocusOne. -/
def wOpenFocusOne : TypeScriptWorkspace :=
  (runEvents initialWorkspace eventsOpenFocusOne).getD initialWorkspace

/-- The workspace with just the first editor opened. -/
def wOpenedOne : TypeScriptWorkspace :=
  (runEvents initialWorkspace
    [WorkspaceEvent.typeScriptTextEditorOpened tsEditorOne]).getD initialWorkspace

/-- The state of the first editor in wOpenedOne. -/
def stOpenedOne : TypeScriptTextEditorState :=
  (stateAt wOpenedOne 0).getD defaultEditorState

/-- The workspace with the first editor opened and an auto-complete
session in progress (toggle deferred, then the interval fired). -/
def wSessionOne : TypeScriptWorkspace :=
  (runEvents initialWorkspace
    [WorkspaceEvent.typeScriptTextEditorOpened tsEditorOne,
     WorkspaceEvent.toggleAutoCompleteCommand (some editorHandleOne),
     WorkspaceEvent.deferredToggleFired 0]).getD initialWorkspace

/-- The state of the first editor in wSessionOne. -/
def stSessionOne : TypeScriptTextEditorState :=
  (stateAt wSessionOne 0).getD defaultEditorState

/-- The workspace produced by focusing the first editor again from
wOpenFocusOne. -/
def wFocusSecond : TypeScriptWorkspace :=
  outcomeW (wOpenFocusOne.onTextEditorChanged (some editorHandleOne))

/-- The log of focusing the first editor again from wOpenFocusOne. -/
def logFocusSecond : List LogEntry :=
  outcomeLog (wOpenFocusOne.onTextEditorChanged (some editorHandleOne))

@[simp]
theorem assocLookup_nil {A : Type} (k : Nat) :
    assocLookup ([] : List (Nat × A)) k = none := rfl

@[simp]
theorem assocLookup_cons {A : Type} (p : Nat × A) (l : List (Nat × A)) (k : Nat) :
    assocLookup (p :: l) k = if p.1 = k then some p.2 else assocLookup l k := rfl

theorem heapSet_map_fst (l : List (Nat × TypeScriptTextEditorState)) (r : Nat)
    (f : TypeScriptTextEditorState → TypeScriptTextEditorState) :
    (heapSet l r f).map Prod.fst = l.map Prod.fst := by
  induction l with
  | nil => rfl
  | cons p rest ih =>
    by_cases h : p.1 = r <;> simp [heapSet, h] at ih ⊢ <;> exact ih

theorem assocLookup_heapSet (l : List (Nat × TypeScriptTextEditorState))
    (r k : Nat) (f : TypeScriptTextEditorState → TypeScriptTextEditorState) :
    assocLookup (heapSet l r f) k =
      if k = r then (assocLookup l k).map f else assocLookup l k := by
  induction l with
  | nil => simp [heapSet]
  | cons p rest ih =>
    simp only [heapSet, List.map_cons] at ih ⊢
    by_cases hpr : p.1 = r
    · subst hpr
      by_cases hpk : p.1 = k
      · subst hpk
        simp
      · have hkp : ¬ k = p.1 := fun h => hpk h.symm
        simp [hpk, hkp, ih]
    · by_cases hpk : p.1 = k
      · subst hpk
        have hkr : ¬ p.1 = r := hpr
        simp [hkr]
      · simp [hpr, hpk, ih]

@[simp]
theorem applyToState_stateHeap (w : TypeScriptWorkspace) (r : Nat)
    (f : TypeScriptTextEditorState → TypeScriptTextEditorState) :
    (w.applyToState r f).stateHeap = heapSet w.stateHeap r f := rfl

@[simp]
theorem applyToState_textEditorStates (w : TypeScriptWorkspace) (r : Nat)
    (f : TypeScriptTextEditorState → TypeScriptTextEditorState) :
    (w.applyToState r f).textEditorStates = w.textEditorStates := rfl

@[simp]
theorem applyToState_activeTextEditorState (w : TypeScriptWorkspace) (r : Nat)
    (f : TypeScriptTextEditorState → TypeScriptTextEditorState) :
    (w.applyToState r f).activeTextEditorState = w.activeTextEditorState := rfl

@[simp]
theorem applyToState_nextStateRef (w : TypeScriptWorkspace) (r : Nat)
    (f : TypeScriptTextEditorState → TypeScriptTextEditorState) :
    (w.applyToState r f).nextStateRef = w.nextStateRef := rfl

@[simp]
theorem applyToState_openedEditors (w : TypeScriptWorkspace) (r : Nat)
    (f : TypeScriptTextEditorState → TypeScriptTextEditorState) :
    (w.applyToState r f).openedEditors = w.openedEditors := rfl

@[simp]
theorem applyToState_pendingToggleRefs (w : TypeScriptWorkspace) (r : Nat)
    (f : TypeScriptTextEditorState → TypeScriptTextEditorState) :
    (w.applyToState r f).pendingToggleRefs = w.pendingToggleRefs := rfl

@[simp]
theorem ensureStatusBar_stateHeap (w : TypeScriptWorkspace) :
    w.ensureStatusBar.stateHeap = w.stateHeap := by
  cases hsb : w.statusBar <;> simp [TypeScriptWorkspace.ensureStatusBar, hsb]

@[simp]
theorem ensureStatusBar_textEditorStates (w : TypeScriptWorkspace) :
    w.ensureStatusBar.textEditorStates = w.textEditorStates := by
  cases hsb : w.statusBar <;> simp [TypeScriptWorkspace.ensureStatusBar, hsb]

@[simp]
theorem ensureStatusBar_activeTextEditorState (w : TypeScriptWorkspace) :
    w.ensureStatusBar.activeTextEditorState = w.activeTextEditorState := by
  cases hsb : w.statusBar <;> simp [TypeScriptWorkspace.ensureStatusBar, hsb]

@[simp]
theorem ensureStatusBar_nextStateRef (w : TypeScriptWorkspace) :
    w.ensureStatusBar.nextStateRef = w.nextStateRef := by
  cases hsb : w.statusBar <;> simp [TypeScriptWorkspace.ensureStatusBar, hsb]

@[simp]
theorem ensureStatusBar_openedEditors (w : TypeScriptWorkspace) :
    w.ensureStatusBar.openedEditors = w.openedEditors := by
  cases hsb : w.statusBar <;> simp [TypeScriptWorkspace.ensureStatusBar, hsb]

@[simp]
theorem ensureStatusBar_pendingToggleRefs (w : TypeScriptWorkspace) :
    w.ensureStatusBar.pendingToggleRefs = w.pendingToggleRefs := by
  cases hsb : w.statusBar <;> simp [TypeScriptWorkspace.ensureStatusBar, hsb]

@[simp]
theorem hideStatusBar_stateHeap (w : TypeScriptWorkspace) :
    w.hideStatusBar.stateHeap = w.stateHeap := rfl

@[simp]
theorem hideStatusBar_textEditorStates (w : TypeScriptWorkspace) :
    w.hideStatusBar.textEditorStates = w.textEditorStates := rfl

@[simp]
theorem hideStatusBar_activeTextEditorState (w : TypeScriptWorkspace) :
    w.hideStatusBar.activeTextEditorState = w.activeTextEditorState := rfl

@[simp]
theorem hideStatusBar_nextStateRef (w : TypeScriptWorkspace) :
    w.hideStatusBar.nextStateRef = w.nextStateRef := rfl

@[simp]
theorem hideStatusBar_openedEditors (w : TypeScriptWorkspace) :
    w.hideStatusBar.openedEditors = w.openedEditors := rfl

@[simp]
theorem hideStatusBar_pendingToggleRefs (w : TypeScriptWorkspace) :
    w.hideStatusBar.pendingToggleRefs = w.pendingToggleRefs := rfl

@[simp]
theorem updateStatusBar_stateHeap (w : TypeScriptWorkspace)
    (st : TypeScriptTextEditorState) :
    (w.updateStatusBar st).stateHeap = w.stateHeap := by
  simp [TypeScriptWorkspace.updateStatusBar]

@[simp]
theorem updateStatusBar_textEditorStates (w : TypeScriptWorkspace)
    (st : TypeScriptTextEditorState) :
    (w.updateStatusBar st).textEditorStates = w.textEditorStates := by
  simp [TypeScriptWorkspace.updateStatusBar]

@[simp]
theorem updateStatusBar_activeTextEditorState (w : TypeScriptWorkspace)
    (st : TypeScriptTextEditorState) :
    (w.updateStatusBar st).activeTextEditorState = w.activeTextEditorState := by
  simp [TypeScriptWorkspace.updateStatusBar]

@[simp]
theorem updateStatusBar_nextStateRef (w : TypeScriptWorkspace)
    (st : TypeScriptTextEditorState) :
    (w.updateStatusBar st).nextStateRef = w.nextStateRef := by
  simp [TypeScriptWorkspace.updateStatusBar]

@[simp]
theorem updateStatusBar_openedEditors (w : TypeScriptWorkspace)
    (st : TypeScriptTextEditorState) :
    (w.updateStatusBar st).openedEditors = w.openedEditors := by
  simp [TypeScriptWorkspace.updateStatusBar]

@[simp]
theorem updateStatusBar_pendingToggleRefs (w : TypeScriptWorkspace)
    (st : TypeScriptTextEditorState) :
    (w.updateStatusBar st).pendingToggleRefs = w.pendingToggleRefs := by
  simp [TypeScriptWorkspace.updateStatusBar]

theorem pair_eq_of_fst_eq {heap : List (Nat × TypeScriptTextEditorState)}
    (hn : (heap.map Prod.fst).Nodup) {p q : Nat × TypeScriptTextEditorState}
    (hp : p ∈ heap) (hq : q ∈ heap) (hk : p.1 = q.1) : p = q := by
  induction heap with
  | nil => cases hp
  | cons a rest ih =>
    simp only [List.map_cons, List.nodup_cons] at hn
    rcases List.mem_cons.1 hp with rfl | hp'
    · rcases List.mem_cons.1 hq with rfl | hq'
      · rfl
      · exact absurd (hk ▸ List.mem_map_of_mem Prod.fst hq') hn.1
    · rcases List.mem_cons.1 hq with rfl | hq'
      · exact absurd (hk ▸ List.mem_map_of_mem Prod.fst hp') hn.1
      · exact ih hn.2 hp' hq'

theorem atMostOneActive_of_activeInvariant (w : TypeScriptWorkspace)
    (h : ActiveInvariant w) : AtMostOneActive w := by
  intro p hp q hq hpa hqa
  have h1 := h.1 p hp hpa
  have h2 := h.1 q hq hqa
  have hk : p.1 = q.1 := by
    have := h1.symm.trans h2
    exact Option.some.inj this
  exact pair_eq_of_fst_eq h.2.1 hp hq hk

theorem heapSet_bound {heap : List (Nat × TypeScriptTextEditorState)} {n r : Nat}
    {f : TypeScriptTextEditorState → TypeScriptTextEditorState}
    (h : ∀ p ∈ heap, p.1 < n) : ∀ p ∈ heapSet heap r f, p.1 < n := by
  intro p hp
  obtain ⟨q, hq, rfl⟩ := List.mem_map.1 hp
  have hlt := h q hq
  by_cases hqr : q.1 = r <;> simp [hqr] <;> omega

theorem activeInvariantOn_heapSet_neutral
    (heap : List (Nat × TypeScriptTextEditorState)) (ptr : Option Nat)
    (nextRef r : Nat) (f : TypeScriptTextEditorState → TypeScriptTextEditorState)
    (hf : ∀ s, (f s).activated = s.activated)
    (h : ActiveInvariantOn heap ptr nextRef) :
    ActiveInvariantOn (heapSet heap r f) ptr nextRef := by
  obtain ⟨h1, h2, h3⟩ := h
  refine ⟨?_, ?_, heapSet_bound h3⟩
  · intro p hp hpa
    obtain ⟨⟨k, s⟩, hq, rfl⟩ := List.mem_map.1 hp
    by_cases hqr : k = r
    · subst hqr
      simp [hf] at hpa
      simpa using h1 ⟨k, s⟩ hq hpa
    · simp [hqr] at hpa ⊢
      exact h1 ⟨k, s⟩ hq hpa
  · rw [heapSet_map_fst]
    exact h2

theorem activeInvariantOn_insert
    (heap : List (Nat × TypeScriptTextEditorState)) (ptr : Option Nat)
    (nextRef : Nat) (st : TypeScriptTextEditorState)
    (hst : st.activated = false) (h : ActiveInvariantOn heap ptr nextRef) :
    ActiveInvariantOn ((nextRef, st) :: heap) ptr (nextRef + 1) := by
  obtain ⟨h1, h2, h3⟩ := h
  refine ⟨?_, ?_, ?_⟩
  · intro p hp hpa
    rcases List.mem_cons.1 hp with rfl | hp'
    · simp [hst] at hpa
    · exact h1 p hp' hpa
  · simp only [List.map_cons, List.nodup_cons]
    refine ⟨?_, h2⟩
    intro hmem
    obtain ⟨q, hq, hq1⟩ := List.mem_map.1 hmem
    have hlt := h3 q hq
    omega
  · intro p hp
    rcases List.mem_cons.1 hp with rfl | hp'
    · simp
    · have := h3 p hp'
      omega

theorem activeInvariantOn_activate_some
    (heap : List (Nat × TypeScriptTextEditorState)) (nextRef r r0 : Nat)
    (h : ActiveInvariantOn heap (some r0) nextRef) :
    ActiveInvariantOn
      (heapSet (heapSet heap r0 TypeScriptTextEditorState.deactivate) r
        TypeScriptTextEditorState.activate)
      (some r) nextRef := by
  obtain ⟨h1, h2, h3⟩ := h
  refine ⟨?_, ?_, heapSet_bound (heapSet_bound h3)⟩
  · intro p hp hpa
    obtain ⟨⟨k, s⟩, hq, rfl⟩ := List.mem_map.1 hp
    by_cases hqr : k = r
    · subst hqr
      simp
    · simp [hqr] at hpa ⊢
      obtain ⟨⟨k0, s0⟩, hq0, heq⟩ := List.mem_map.1 hq
      by_cases hq0r : k0 = r0
      · subst hq0r
        simp at heq
        obtain ⟨rfl, rfl⟩ := heq
        simp [TypeScriptTextEditorState.deactivate] at hpa
      · simp [hq0r] at heq
        obtain ⟨hk, hs⟩ := heq
        have hptr := h1 ⟨k0, s0⟩ hq0 (hs.symm ▸ hpa)
        simp at hptr
        exact absurd hptr.symm hq0r
  · rw [heapSet_map_fst, heapSet_map_fst]
    exact h2

theorem activeInvariant_congr {w w' : TypeScriptWorkspace}
    (hh : w'.stateHeap = w.stateHeap)
    (ha : w'.activeTextEditorState = w.activeTextEditorState)
    (hn : w'.nextStateRef = w.nextStateRef)
    (h : ActiveInvariant w) : ActiveInvariant w' := by
  unfold ActiveInvariant at h ⊢
  rw [hh, ha, hn]
  exact h

theorem activeInvariant_applyToState_neutral {w : TypeScriptWorkspace} {r : Nat}
    {f : TypeScriptTextEditorState → TypeScriptTextEditorState}
    (hf : ∀ s, (f s).activated = s.activated)
    (h : ActiveInvariant w) : ActiveInvariant (w.applyToState r f) :=
  activeInvariantOn_heapSet_neutral w.stateHeap w.activeTextEditorState
    w.nextStateRef r f hf h

theorem activeInvariantOn_activate_none
    (heap : List (Nat × TypeScriptTextEditorState)) (nextRef r : Nat)
    (h : ActiveInvariantOn heap none nextRef) :
    ActiveInvariantOn (heapSet heap r TypeScriptTextEditorState.activate)
      (some r) nextRef := by
  obtain ⟨h1, h2, h3⟩ := h
  refine ⟨?_, ?_, heapSet_bound h3⟩
  · intro p hp hpa
    obtain ⟨⟨k, s⟩, hq, rfl⟩ := List.mem_map.1 hp
    by_cases hqr : k = r
    · subst hqr
      simp
    · simp [hqr] at hpa ⊢
      exact absurd (h1 ⟨k, s⟩ hq hpa) (by simp)
  · rw [heapSet_map_fst]
    exact h2

theorem autoCompleteCommand_run_activated (c : AutoCompleteCommand)
    (s : TypeScriptTextEditorState) : (c.run s).activated = s.activated := by
  cases c <;> rfl

theorem activeInvariant_opened (w : TypeScriptWorkspace)
    (tsEd : TypeScriptTextEditor) (h : ActiveInvariant w) :
    ActiveInvariant (w.onTypeScriptTextEditorOpened tsEd).1 :=
  activeInvariantOn_insert w.stateHeap w.activeTextEditorState w.nextStateRef
    _ rfl h

theorem activeInvariant_activateFocusedState {w2 w' : TypeScriptWorkspace}
    {log2 log' : List LogEntry} {editorId : Nat}
    (hstep : w2.activateFocusedState log2 editorId = some (w', log'))
    (hai : ∀ r, ActiveInvariantOn
      (heapSet w2.stateHeap r TypeScriptTextEditorState.activate) (some r)
      w2.nextStateRef) :
    ActiveInvariant w' := by
  simp only [TypeScriptWorkspace.activateFocusedState] at hstep
  split at hstep
  · exact Option.noConfusion hstep
  · rename_i r hr
    split at hstep
    · exact Option.noConfusion hstep
    · rename_i st hst
      simp only [Option.some.injEq, Prod.mk.injEq] at hstep
      obtain ⟨hw, -⟩ := hstep
      have h4 : ActiveInvariant
          (({ w2 with activeTextEditorState := some r }).applyToState r
            TypeScriptTextEditorState.activate) := hai r
      exact activeInvariant_congr (by rw [← hw]; simp) (by rw [← hw]; simp)
        (by rw [← hw]; simp) h4

theorem activeInvariant_textEditorChanged {w w' : TypeScriptWorkspace}
    {textEditor : Option TextEditor} {log : List LogEntry}
    (hstep : w.onTextEditorChanged textEditor = some (w', log))
    (h : ActiveInvariant w) : ActiveInvariant w' := by
  cases textEditor with
  | none =>
    simp only [TypeScriptWorkspace.onTextEditorChanged, Option.some.injEq,
      Prod.mk.injEq] at hstep
    obtain ⟨hw, -⟩ := hstep
    exact activeInvariant_congr (by rw [← hw]; simp) (by rw [← hw]; simp)
      (by rw [← hw]; simp) h
  | some ed =>
    simp only [TypeScriptWorkspace.onTextEditorChanged,
      ensureStatusBar_activeTextEditorState] at hstep
    split at hstep
    · simp only [Option.some.injEq, Prod.mk.injEq] at hstep
      obtain ⟨hw, -⟩ := hstep
      exact activeInvariant_congr (by rw [← hw]; simp) (by rw [← hw]; simp)
        (by rw [← hw]; simp) h
    · split at hstep
      · rename_i r0 hprev
        refine activeInvariant_activateFocusedState hstep (fun r => ?_)
        have hOn : ActiveInvariantOn w.stateHeap (some r0) w.nextStateRef := by
          have h' := h
          unfold ActiveInvariant at h'
          rwa [hprev] at h'
        simpa using activeInvariantOn_activate_some w.stateHeap w.nextStateRef
          r r0 hOn
      · rename_i hprev
        refine activeInvariant_activateFocusedState hstep (fun r => ?_)
        have hOn : ActiveInvariantOn w.stateHeap none w.nextStateRef := by
          have h' := h
          unfold ActiveInvariant at h'
          rwa [hprev] at h'
        simpa using activeInvariantOn_activate_none w.stateHeap w.nextStateRef
          r hOn

theorem activeInvariant_contentsChanging {w w' : TypeScriptWorkspace}
    {editorId : Nat} {log : List LogEntry}
    (hstep : w.onTypeScriptTextEditorContentsChanging editorId = some (w', log))
    (h : ActiveInvariant w) : ActiveInvariant w' := by
  simp only [TypeScriptWorkspace.onTypeScriptTextEditorContentsChanging] at hstep
  split at hstep
  · exact Option.noConfusion hstep
  · simp only [Option.some.injEq, Prod.mk.injEq] at hstep
    obtain ⟨hw, -⟩ := hstep
    rw [← hw]
    exact activeInvariant_applyToState_neutral (fun s => rfl) h

theorem activeInvariant_contentsChanged {w w' : TypeScriptWorkspace}
    {editorId : Nat} {log : List LogEntry}
    (hstep : w.onTypeScriptTextEditorContentsChanged editorId = some (w', log))
    (h : ActiveInvariant w) : ActiveInvariant w' := by
  simp only [TypeScriptWorkspace.onTypeScriptTextEditorContentsChanged] at hstep
  split at hstep
  · exact Option.noConfusion hstep
  · rename_i r hr
    split at hstep
    · exact Option.noConfusion hstep
    · simp only [Option.some.injEq, Prod.mk.injEq] at hstep
      obtain ⟨hw, -⟩ := hstep
      have hinv : ActiveInvariant (w.applyToState r (fun s =>
          TypeScriptTextEditorState.updateFromContentChange
            { s with contentsChanging := false })) :=
        activeInvariant_applyToState_neutral (fun s => rfl) h
      exact activeInvariant_congr (by rw [← hw]; simp) (by rw [← hw]; simp)
        (by rw [← hw]; simp) hinv

theorem activeInvariant_mouseHover {w w' : TypeScriptWorkspace}
    {tsEd : TypeScriptTextEditor} {bufferPosition : Option Nat}
    {log : List LogEntry}
    (hstep : w.onMouseHoverPositionChanged tsEd bufferPosition = some (w', log))
    (h : ActiveInvariant w) : ActiveInvariant w' := by
  simp only [TypeScriptWorkspace.onMouseHoverPositionChanged] at hstep
  split at hstep
  · exact Option.noConfusion hstep
  · rename_i r hr
    split at hstep
    · exact Option.noConfusion hstep
    · rename_i st hst
      split at hstep
      · simp only [Option.some.injEq, Prod.mk.injEq] at hstep
        obtain ⟨hw, -⟩ := hstep
        rw [← hw]
        exact activeInvariant_applyToState_neutral (fun s => rfl) h
      · split at hstep
        · simp only [Option.some.injEq, Prod.mk.injEq] at hstep
          obtain ⟨hw, -⟩ := hstep
          rw [← hw]
          exact h
        · split at hstep
          · simp only [Option.some.injEq, Prod.mk.injEq] at hstep
            obtain ⟨hw, -⟩ := hstep
            rw [← hw]
            exact activeInvariant_applyToState_neutral (fun s => rfl) h
          · split at hstep
            · simp only [Option.some.injEq, Prod.mk.injEq] at hstep
              obtain ⟨hw, -⟩ := hstep
              rw [← hw]
              exact activeInvariant_applyToState_neutral (fun s => rfl) h
            · simp only [Option.some.injEq, Prod.mk.injEq] at hstep
              obtain ⟨hw, -⟩ := hstep
              rw [← hw]
              exact activeInvariant_applyToState_neutral (fun s => rfl) h

theorem activeInvariant_cursorPositionChanged {w w' : TypeScriptWorkspace}
    {editorId : Nat} {log : List LogEntry}
    (hstep : w.onCursorPositionChanged editorId = some (w', log))
    (h : ActiveInvariant w) : ActiveInvariant w' := by
  simp only [TypeScriptWorkspace.onCursorPositionChanged] at hstep
  split at hstep
  · exact Option.noConfusion hstep
  · simp only [Option.some.injEq, Prod.mk.injEq] at hstep
    obtain ⟨hw, -⟩ := hstep
    rw [← hw]
    exact activeInvariant_applyToState_neutral (fun s => rfl) h

theorem activeInvariant_closed {w w' : TypeScriptWorkspace}
    {editorId : Nat} {log : List LogEntry}
    (hstep : w.onTypeScriptTextEditorClosed editorId = some (w', log))
    (h : ActiveInvariant w) : ActiveInvariant w' := by
  simp only [TypeScriptWorkspace.onTypeScriptTextEditorClosed] at hstep
  split at hstep
  · exact Option.noConfusion hstep
  · rename_i r hr
    simp only [Option.some.injEq, Prod.mk.injEq] at hstep
    obtain ⟨hw, -⟩ := hstep
    have hinv : ActiveInvariant
        (w.applyToState r TypeScriptTextEditorState.dispose) :=
      activeInvariant_applyToState_neutral (fun s => rfl) h
    exact activeInvariant_congr (by rw [← hw]) (by rw [← hw])
      (by rw [← hw]) hinv

theorem activeInvariant_withAutoComplete {w w' : TypeScriptWorkspace}
    {activeTextEditor : Option TextEditor} {command : AutoCompleteCommand}
    {log : List LogEntry}
    (hstep : w.withAutoCompleteInProgress activeTextEditor command = some (w', log))
    (h : ActiveInvariant w) : ActiveInvariant w' := by
  simp only [TypeScriptWorkspace.withAutoCompleteInProgress] at hstep
  split at hstep
  · exact Option.noConfusion hstep
  · split at hstep
    · exact Option.noConfusion hstep
    · rename_i r hr
      split at hstep
      · exact Option.noConfusion hstep
      · rename_i st hst
        split at hstep
        · simp only [Option.some.injEq, Prod.mk.injEq] at hstep
          obtain ⟨hw, -⟩ := hstep
          rw [← hw]
          exact h
        · simp only [Option.some.injEq, Prod.mk.injEq] at hstep
          obtain ⟨hw, -⟩ := hstep
          rw [← hw]
          exact activeInvariant_applyToState_neutral
            (autoCompleteCommand_run_activated command) h

theorem activeInvariant_toggleAutoComplete {w w' : TypeScriptWorkspace}
    {activeTextEditor : Option TextEditor} {log : List LogEntry}
    (hstep : w.onToggleAutoComplete activeTextEditor = some (w', log))
    (h : ActiveInvariant w) : ActiveInvariant w' := by
  simp only [TypeScriptWorkspace.onToggleAutoComplete] at hstep
  split at hstep
  · exact Option.noConfusion hstep
  · split at hstep
    · simp only [Option.some.injEq, Prod.mk.injEq] at hstep
      obtain ⟨hw, -⟩ := hstep
      rw [← hw]
      exact h
    · split at hstep
      · exact Option.noConfusion hstep
      · rename_i r hr
        split at hstep
        · exact Option.noConfusion hstep
        · rename_i st hst
          split at hstep
          · simp only [Option.some.injEq, Prod.mk.injEq] at hstep
            obtain ⟨hw, -⟩ := hstep
            rw [← hw]
            exact activeInvariant_applyToState_neutral (fun s => rfl) h
          · simp only [Option.some.injEq, Prod.mk.injEq] at hstep
            obtain ⟨hw, -⟩ := hstep
            exact activeInvariant_congr (by rw [← hw]) (by rw [← hw])
              (by rw [← hw]) h

theorem activeInvariant_deferredToggleFired (w : TypeScriptWorkspace) (r : Nat)
    (h : ActiveInvariant w) : ActiveInvariant (w.deferredToggleFired r).1 := by
  unfold TypeScriptWorkspace.deferredToggleFired
  split
  · have hinv : ActiveInvariant (w.applyToState r (fun s =>
        { s.toggleAutoComplete with contentsChanging := false })) :=
      activeInvariant_applyToState_neutral (fun s => rfl) h
    exact activeInvariant_congr (by simp) (by simp) (by simp) hinv
  · exact h

theorem activeInvariant_stepEvent {w w' : TypeScriptWorkspace}
    {e : WorkspaceEvent} {log : List LogEntry}
    (hstep : w.stepEvent e = some (w', log))
    (h : ActiveInvariant w) : ActiveInvariant w' := by
  cases e with
  | typeScriptTextEditorOpened tsEd =>
    simp only [TypeScriptWorkspace.stepEvent, Option.some.injEq] at hstep
    have hw : (w.onTypeScriptTextEditorOpened tsEd).1 = w' := by
      rw [hstep]
    rw [← hw]
    exact activeInvariant_opened w tsEd h
  | textEditorChanged textEditor =>
    exact activeInvariant_textEditorChanged hstep h
  | contentsChanging editorId =>
    simp only [TypeScriptWorkspace.stepEvent] at hstep
    split at hstep
    · exact activeInvariant_contentsChanging hstep h
    · simp only [Option.some.injEq, Prod.mk.injEq] at hstep
      obtain ⟨hw, -⟩ := hstep
      rw [← hw]
      exact h
  | contentsChanged editorId =>
    simp only [TypeScriptWorkspace.stepEvent] at hstep
    split at hstep
    · exact activeInvariant_contentsChanged hstep h
    · simp only [Option.some.injEq, Prod.mk.injEq] at hstep
      obtain ⟨hw, -⟩ := hstep
      rw [← hw]
      exact h
  | mouseHoverPositionChanged editorId bufferPosition =>
    simp only [TypeScriptWorkspace.stepEvent] at hstep
    split at hstep
    · exact activeInvariant_mouseHover hstep h
    · simp only [Option.some.injEq, Prod.mk.injEq] at hstep
      obtain ⟨hw, -⟩ := hstep
      rw [← hw]
      exact h
  | cursorPositionChanged editorId =>
    simp only [TypeScriptWorkspace.stepEvent] at hstep
    split at hstep
    · exact activeInvariant_cursorPositionChanged hstep h
    · simp only [Option.some.injEq, Prod.mk.injEq] at hstep
      obtain ⟨hw, -⟩ := hstep
      rw [← hw]
      exact h
  | textEditorClosed editorId =>
    simp only [TypeScriptWorkspace.stepEvent] at hstep
    split at hstep
    · exact activeInvariant_closed hstep h
    · simp only [Option.some.injEq, Prod.mk.injEq] at hstep
      obtain ⟨hw, -⟩ := hstep
      rw [← hw]
      exact h
  | toggleAutoCompleteCommand activeTextEditor =>
    exact activeInvariant_toggleAutoComplete hstep h
  | autoCompleteCommand command activeTextEditor =>
    exact activeInvariant_withAutoComplete hstep h
  | deferredToggleFired ref =>
    simp only [TypeScriptWorkspace.stepEvent, Option.some.injEq] at hstep
    have hw : (w.deferredToggleFired ref).1 = w' := by
      rw [hstep]
    rw [← hw]
    exact activeInvariant_deferredToggleFired w ref h

theorem activeInvariant_initial : ActiveInvariant initialWorkspace := by
  refine ⟨?_, ?_, ?_⟩ <;> simp [initialWorkspace]

theorem activeInvariant_runEvents {es : List WorkspaceEvent}
    {w w' : TypeScriptWorkspace} (hrun : runEvents w es = some w')
    (h : ActiveInvariant w) : ActiveInvariant w' := by
  induction es generalizing w with
  | nil =>
    simp only [runEvents, Option.some.injEq] at hrun
    rwa [← hrun]
  | cons e es ih =>
    simp only [runEvents] at hrun
    split at hrun
    · exact Option.noConfusion hrun
    · rename_i p hstep
      exact ih hrun (activeInvariant_stepEvent hstep h)

@[simp]
theorem ensureStatusBar_isDisposed (w : TypeScriptWorkspace) (r : Nat) :
    w.ensureStatusBar.isDisposed r = w.isDisposed r := by
  unfold TypeScriptWorkspace.isDisposed stateAt
  rw [ensureStatusBar_stateHeap]

theorem isDisposed_of_stateAt {w : TypeScriptWorkspace} {r : Nat}
    {st : TypeScriptTextEditorState} (hst : stateAt w r = some st) :
    w.isDisposed r = st.disposed := by
  unfold TypeScriptWorkspace.isDisposed
  rw [hst]

theorem stateAt_applyToState_self (w : TypeScriptWorkspace) (r : Nat)
    (f : TypeScriptTextEditorState → TypeScriptTextEditorState) :
    stateAt (w.applyToState r f) r = (stateAt w r).map f := by
  unfold stateAt
  simp [assocLookup_heapSet]

theorem activateFocusedState_log {w2 w' : TypeScriptWorkspace}
    {log2 log' : List LogEntry} {editorId : Nat}
    (hstep : w2.activateFocusedState log2 editorId = some (w', log')) :
    ∃ r d, log' = log2 ++ [LogEntry.stateCall r StateMethod.activate d,
                           LogEntry.statusBarShow] := by
  simp only [TypeScriptWorkspace.activateFocusedState] at hstep
  split at hstep
  · exact Option.noConfusion hstep
  · rename_i r hr
    split at hstep
    · exact Option.noConfusion hstep
    · rename_i st hst
      simp only [Option.some.injEq, Prod.mk.injEq] at hstep
      obtain ⟨-, hl⟩ := hstep
      exact ⟨r, _, hl.symm⟩

/-- C1 is false on the code at this input: open a TypeScript editor, focus
it, then process a focus change to an undefined editor.  The status
indicator ends hidden, as the claim says, but the previously active state
is still marked active: onTextEditorChanged returns before deactivating
anything when the focused editor is not recognized. -/
theorem C1_focus_nonrecognized_counterexample :
    runEvents initialWorkspace eventsFocusAway = some wFocusAway
    ∧ (wFocusAway.statusBar).map TypeScriptDiagnosticStatusBar.visible
        = some false
    ∧ stateAt wFocusAway 0
        = some { contentsChanging := false, autoCompleteInProgress := false,
                 activated := true, disposed := false, tooltip := none,
                 inError := false, diagnostics := [(5, "diag")] }
    ∧ wFocusAway.stateHeap.any (fun p => p.2.activated) = true := by
  decide

/-- C1 (amended): for every focus-change event carrying an editor that is
absent or whose grammar is not TypeScript, onTextEditorChanged hides the
status indicator and returns with the editor states and the active-state
pointer untouched; in particular a previously active state remains
active. -/
theorem C1_focus_nonrecognized_amended (w : TypeScriptWorkspace)
    (textEditor : Option TextEditor)
    (hne : textEditor = none
      ∨ ∃ ed, textEditor = some ed ∧ ed.grammarName ≠ "TypeScript") :
    (w.onTextEditorChanged textEditor).isSome = true
    ∧ outcomeLog (w.onTextEditorChanged textEditor) = [LogEntry.statusBarHide]
    ∧ (outcomeW (w.onTextEditorChanged textEditor)).stateHeap = w.stateHeap
    ∧ (outcomeW (w.onTextEditorChanged textEditor)).activeTextEditorState
        = w.activeTextEditorState
    ∧ ((outcomeW (w.onTextEditorChanged textEditor)).statusBar).map
        TypeScriptDiagnosticStatusBar.visible = some false := by
  have hout : w.onTextEditorChanged textEditor =
      some (w.ensureStatusBar.hideStatusBar, [LogEntry.statusBarHide]) := by
    rcases hne with rfl | ⟨ed, rfl, hg⟩
    · simp [TypeScriptWorkspace.onTextEditorChanged]
    · simp [TypeScriptWorkspace.onTextEditorChanged, hg]
  rw [hout]
  refine ⟨rfl, rfl, by simp [outcomeW], by simp [outcomeW], ?_⟩
  simp only [outcomeW, Option.map_some, Option.getD_some]
  cases hsb : w.statusBar <;>
    simp [TypeScriptWorkspace.hideStatusBar, TypeScriptWorkspace.ensureStatusBar,
      hsb]

/-- C1 (amended) at a concrete input: after opening and focusing a
TypeScript editor, a focus change to an undefined editor hides the status
indicator and leaves heap and active pointer untouched. -/
theorem C1_focus_nonrecognized_amended_witness :
    (wOpenFocusOne.onTextEditorChanged none).isSome = true
    ∧ outcomeLog (wOpenFocusOne.onTextEditorChanged none)
        = [LogEntry.statusBarHide]
    ∧ (outcomeW (wOpenFocusOne.onTextEditorChanged none)).stateHeap
        = wOpenFocusOne.stateHeap
    ∧ (outcomeW (wOpenFocusOne.onTextEditorChanged none)).activeTextEditorState
        = wOpenFocusOne.activeTextEditorState
    ∧ ((outcomeW (wOpenFocusOne.onTextEditorChanged none)).statusBar).map
        TypeScriptDiagnosticStatusBar.visible = some false :=
  C1_focus_nonrecognized_amended wOpenFocusOne none (Or.inl rfl)

theorem executeAfterContentChangeLoop_allTrue (flagAt : Nat → Bool)
    (hflag : ∀ n, flagAt n = true) :
    ∀ (fuel c t : Nat), c ≤ 51 → 51 - c < fuel →
    executeAfterContentChangeLoop flagAt c t fuel
      = some { fireTickIndex := t + (51 - c), flagAfter := false,
               intervalWasCleared := true } := by
  intro fuel
  induction fuel with
  | zero =>
    intro c t hc hf
    omega
  | succ fuel ih =>
    intro c t hc hf
    by_cases hcm : c > maxIntervals
    · have hc51 : c = 51 := by
        simp [maxIntervals] at hcm
        omega
      have hz : 51 - c = 0 := by omega
      simp [executeAfterContentChangeLoop, hflag, hcm, hz]
    · have hcle : c ≤ 50 := by
        simp [maxIntervals] at hcm
        omega
      have hrec := ih (c + 1) (t + 1) (by omega) (by omega)
      have harith : t + 1 + (51 - (c + 1)) = t + (51 - c) := by omega
      rw [harith] at hrec
      simpa [executeAfterContentChangeLoop, hflag, hcm] using hrec

/-- C2 is false on the code at this input: when the contents-changing flag
never clears, the interval body compares the post-incremented count
against the bound with a strict comparison, so the deferred function runs
on the 52nd tick, not after exactly 50 polling intervals. -/
theorem C2_poll_bound_counterexample :
    executeAfterContentChange (fun _ => true) 100
      = some { fireTickIndex := 52, flagAfter := false,
               intervalWasCleared := true }
    ∧ (executeAfterContentChange (fun _ => true) 100).map
        PollOutcome.fireTickIndex ≠ some 50 := by
  decide

/-- C2 (amended): in executeAfterContentChange, if the contents-changing
flag never becomes false, the deferred function is nevertheless invoked on
the 52nd polling tick (the bound is maxIntervals equal to 50 and the
period is 2 time units, but the post-incremented count and the strict
comparison let ticks 1 through 51 pass), after which the flag is set to
false and the timer is cancelled. -/
theorem C2_poll_bound_amended (flagAt : Nat → Bool) (fuel : Nat)
    (hflag : ∀ n, flagAt n = true) (hfuel : 52 ≤ fuel) :
    executeAfterContentChange flagAt fuel
      = some { fireTickIndex := 52, flagAfter := false,
               intervalWasCleared := true }
    ∧ maxIntervals = 50 ∧ pollIntervalPeriod = 2 := by
  refine ⟨?_, rfl, rfl⟩
  have h := executeAfterContentChangeLoop_allTrue flagAt hflag fuel 0 1
    (by omega) (by omega)
  simpa [executeAfterContentChange] using h

/-- C2 (amended) at a concrete input: with a flag that never clears and 60
ticks of fuel the loop fires on tick 52, clears the flag and cancels the
timer. -/
theorem C2_poll_bound_amended_witness :
    executeAfterContentChange (fun _ => true) 60
      = some { fireTickIndex := 52, flagAfter := false,
               intervalWasCleared := true }
    ∧ maxIntervals = 50 ∧ pollIntervalPeriod = 2 :=
  C2_poll_bound_amended (fun _ => true) 60 (fun _ => rfl) (by decide)

/-- C3 is false on the code: the constructor subscribes to the
editor-opened and focus-changed streams but discards both subscription
handles, so dispose releases neither of them. -/
theorem C3_dispose_releases_counterexample :
    Acquisition.typeScriptTextEditorOpenedSubscription ∈ constructorAcquisitions
    ∧ Acquisition.typeScriptTextEditorOpenedSubscription ∉ disposeReleased
    ∧ Acquisition.textEditorChangedSubscription ∈ constructorAcquisitions
    ∧ Acquisition.textEditorChangedSubscription ∉ disposeReleased := by
  decide

/-- C3 (amended): dispose releases exactly the acquisitions pushed onto
the CompositeDisposable during construction, namely the five command
registrations and the key-binding registration; the constructor
subscriptions to the editor-opened and focus-changed streams are not
released. -/
theorem C3_dispose_releases_amended :
    disposeReleased
      = constructorAcquisitions.filter Acquisition.pushedToDisposables
    ∧ Acquisition.typeScriptTextEditorOpenedSubscription ∉ disposeReleased
    ∧ Acquisition.textEditorChangedSubscription ∉ disposeReleased := by
  decide

/-- C4: the code violates the claim.  Close the first editor while its
state is the active one, open a second editor and focus it: the closed
handler never clears the active pointer, so the focus-change handler
invokes deactivate on the disposed state of the first editor (the log
records a deactivate call whose target was already disposed). -/
theorem C4_close_active_then_focus_touches_disposed :
    runEventsWithLog initialWorkspace eventsCloseActive
      = some (wCloseActive, logCloseActive)
    ∧ LogEntry.stateCall 0 StateMethod.deactivate true ∈ logCloseActive
    ∧ stateAt wCloseActive 0
        = some { contentsChanging := false, autoCompleteInProgress := false,
                 activated := false, disposed := true, tooltip := none,
                 inError := false, diagnostics := [(5, "diag")] } := by
  decide

/-- C5: in every state reachable by a crash-free run from the initial
workspace, at most one editor state is marked active; and whenever a
focus-change event activates a state while some state was previously
active, the very first call the handler makes is deactivate on the
previously active state. -/
theorem C5_at_most_one_active :
    (∀ (es : List WorkspaceEvent) (w : TypeScriptWorkspace),
      runEvents initialWorkspace es = some w → AtMostOneActive w)
    ∧ (∀ (w w' : TypeScriptWorkspace) (ed : TextEditor) (log : List LogEntry)
        (r0 r1 : Nat) (d1 : Bool),
      w.activeTextEditorState = some r0 →
      w.onTextEditorChanged (some ed) = some (w', log) →
      LogEntry.stateCall r1 StateMethod.activate d1 ∈ log →
      log.head? = some (LogEntry.stateCall r0 StateMethod.deactivate
        (w.isDisposed r0))) := by
  constructor
  · intro es w hrun
    exact atMostOneActive_of_activeInvariant w
      (activeInvariant_runEvents hrun activeInvariant_initial)
  · intro w w' ed log r0 r1 d1 hptr hstep hact
    simp only [TypeScriptWorkspace.onTextEditorChanged,
      ensureStatusBar_activeTextEditorState, ensureStatusBar_isDisposed]
      at hstep
    split at hstep
    · simp only [Option.some.injEq, Prod.mk.injEq] at hstep
      obtain ⟨-, hl⟩ := hstep
      rw [← hl] at hact
      simp at hact
    · split at hstep
      · rename_i r0' hprev
        rw [hptr] at hprev
        obtain rfl : r0 = r0' := Option.some.inj hprev
        obtain ⟨r2, d2, hl⟩ := activateFocusedState_log hstep
        rw [hl]
        simp
      · rename_i hprev
        rw [hptr] at hprev
        exact Option.noConfusion hprev

/-- C5 at a concrete input: after opening and focusing a TypeScript editor
at most one state is marked active, and a second focus-change that
activates a state logs the deactivate call on the previously active state
first. -/
theorem C5_at_most_one_active_witness :
    AtMostOneActive wOpenFocusOne
    ∧ logFocusSecond.head? = some (LogEntry.stateCall 0 StateMethod.deactivate
        (wOpenFocusOne.isDisposed 0)) :=
  ⟨C5_at_most_one_active.1 eventsOpenFocusOne wOpenFocusOne (by decide),
   C5_at_most_one_active.2 wOpenFocusOne wFocusSecond editorHandleOne
     logFocusSecond 0 0 false (by decide) (by decide) (by decide)⟩

/-- C6: for a hover event on an editor whose state is registered: an empty
position removes the tooltip; with an auto-complete session in progress
nothing is done; otherwise a diagnostic at the position is shown as the
tooltip (winning the tie-break over any quick-info, which is not even
queried), failing that quick-info is shown, failing that the tooltip is
removed. -/
theorem C6_hover_tiebreak (w : TypeScriptWorkspace)
    (tsEd : TypeScriptTextEditor) (r : Nat) (st : TypeScriptTextEditorState)
    (href : w.lookupStateRef tsEd.id = some r)
    (hst : stateAt w r = some st) :
    (w.onMouseHoverPositionChanged tsEd none
        = some (w.applyToState r TypeScriptTextEditorState.removeTooltip,
                [LogEntry.stateCall r StateMethod.removeTooltip st.disposed])
      ∧ stateAt (outcomeW (w.onMouseHoverPositionChanged tsEd none)) r
          = some { st with tooltip := none })
    ∧ (∀ p, st.autoCompleteInProgress = true →
        w.onMouseHoverPositionChanged tsEd (some p) = some (w, []))
    ∧ (∀ p m, st.autoCompleteInProgress = false →
        assocLookup st.diagnostics p = some m →
        w.onMouseHoverPositionChanged tsEd (some p)
          = some (w.applyToState r
                    (TypeScriptTextEditorState.setTooltip (Tooltip.diagnostic m p)),
                  [LogEntry.stateCall r StateMethod.setTooltip st.disposed])
        ∧ stateAt (outcomeW (w.onMouseHoverPositionChanged tsEd (some p))) r
            = some { st with tooltip := some (Tooltip.diagnostic m p) })
    ∧ (∀ p i, st.autoCompleteInProgress = false →
        assocLookup st.diagnostics p = none →
        assocLookup tsEd.quickInfos p = some i →
        w.onMouseHoverPositionChanged tsEd (some p)
          = some (w.applyToState r
                    (TypeScriptTextEditorState.setTooltip (Tooltip.quickInfo i p)),
                  [LogEntry.stateCall r StateMethod.setTooltip st.disposed])
        ∧ stateAt (outcomeW (w.onMouseHoverPositionChanged tsEd (some p))) r
            = some { st with tooltip := some (Tooltip.quickInfo i p) })
    ∧ (∀ p, st.autoCompleteInProgress = false →
        assocLookup st.diagnostics p = none →
        assocLookup tsEd.quickInfos p = none →
        w.onMouseHoverPositionChanged tsEd (some p)
          = some (w.applyToState r TypeScriptTextEditorState.removeTooltip,
                  [LogEntry.stateCall r StateMethod.removeTooltip st.disposed])
        ∧ stateAt (outcomeW (w.onMouseHoverPositionChanged tsEd (some p))) r
            = some { st with tooltip := none }) := by
  have hst' : assocLookup w.stateHeap r = some st := hst
  refine ⟨?_, ?_, ?_, ?_, ?_⟩
  · have hout : w.onMouseHoverPositionChanged tsEd none
        = some (w.applyToState r TypeScriptTextEditorState.removeTooltip,
                [LogEntry.stateCall r StateMethod.removeTooltip st.disposed]) := by
      simp [TypeScriptWorkspace.onMouseHoverPositionChanged, href, hst]
    refine ⟨hout, ?_⟩
    rw [hout]
    simp [outcomeW, stateAt, assocLookup_heapSet, hst',
      TypeScriptTextEditorState.removeTooltip]
  · intro p hac
    simp [TypeScriptWorkspace.onMouseHoverPositionChanged, href, hst, hac]
  · intro p m hac hdiag
    have hout : w.onMouseHoverPositionChanged tsEd (some p)
        = some (w.applyToState r
                  (TypeScriptTextEditorState.setTooltip (Tooltip.diagnostic m p)),
                [LogEntry.stateCall r StateMethod.setTooltip st.disposed]) := by
      simp [TypeScriptWorkspace.onMouseHoverPositionChanged, href, hst, hac,
        TypeScriptTextEditorState.getDiagnosticForBufferPosition, hdiag]
    refine ⟨hout, ?_⟩
    rw [hout]
    simp [outcomeW, stateAt, assocLookup_heapSet, hst',
      TypeScriptTextEditorState.setTooltip]
  · intro p i hac hdiag hinfo
    have hout : w.onMouseHoverPositionChanged tsEd (some p)
        = some (w.applyToState r
                  (TypeScriptTextEditorState.setTooltip (Tooltip.quickInfo i p)),
                [LogEntry.stateCall r StateMethod.setTooltip st.disposed]) := by
      simp [TypeScriptWorkspace.onMouseHoverPositionChanged, href, hst, hac,
        TypeScriptTextEditorState.getDiagnosticForBufferPosition, hdiag,
        TypeScriptTextEditor.getQuickInfoForBufferPosition, hinfo]
    refine ⟨hout, ?_⟩
    rw [hout]
    simp [outcomeW, stateAt, assocLookup_heapSet, hst',
      TypeScriptTextEditorState.setTooltip]
  · intro p hac hdiag hinfo
    have hout : w.onMouseHoverPositionChanged tsEd (some p)
        = some (w.applyToState r TypeScriptTextEditorState.removeTooltip,
                [LogEntry.stateCall r StateMethod.removeTooltip st.disposed]) := by
      simp [TypeScriptWorkspace.onMouseHoverPositionChanged, href, hst, hac,
        TypeScriptTextEditorState.getDiagnosticForBufferPosition, hdiag,
        TypeScriptTextEditor.getQuickInfoForBufferPosition, hinfo]
    refine ⟨hout, ?_⟩
    rw [hout]
    simp [outcomeW, stateAt, assocLookup_heapSet, hst',
      TypeScriptTextEditorState.removeTooltip]

/-- C6 at a concrete input: with both a diagnostic and quick-info at
position five and no session in progress, hovering shows the diagnostic as
the tooltip. -/
theorem C6_hover_tiebreak_witness :
    wOpenedOne.onMouseHoverPositionChanged tsEditorOne (some 5)
      = some (wOpenedOne.applyToState 0
                (TypeScriptTextEditorState.setTooltip (Tooltip.diagnostic "diag" 5)),
              [LogEntry.stateCall 0 StateMethod.setTooltip stOpenedOne.disposed])
    ∧ stateAt (outcomeW
        (wOpenedOne.onMouseHoverPositionChanged tsEditorOne (some 5))) 0
        = some { stOpenedOne with tooltip := some (Tooltip.diagnostic "diag" 5) } :=
  (C6_hover_tiebreak wOpenedOne tsEditorOne 0 stOpenedOne (by decide)
    (by decide)).2.2.1 5 "diag" (by decide) (by decide)

/-- C7: processing a closed event for an editor whose state is registered
disposes the state, assigns undefined to the mapping entry and leaves the
identifier unregistered afterwards (the flattened lookup of the entry is
undefined even though the key is present and bound to undefined). -/
theorem C7_closed_removes_entry (w : TypeScriptWorkspace) (editorId r : Nat)
    (st : TypeScriptTextEditorState)
    (href : w.lookupStateRef editorId = some r)
    (hst : stateAt w r = some st) :
    (w.onTypeScriptTextEditorClosed editorId).isSome = true
    ∧ (outcomeW (w.onTypeScriptTextEditorClosed editorId)).lookupStateRef
        editorId = none
    ∧ assocLookup
        (outcomeW (w.onTypeScriptTextEditorClosed editorId)).textEditorStates
        editorId = some none
    ∧ stateAt (outcomeW (w.onTypeScriptTextEditorClosed editorId)) r
        = some { st with disposed := true }
    ∧ outcomeLog (w.onTypeScriptTextEditorClosed editorId)
        = [LogEntry.stateCall r StateMethod.dispose st.disposed] := by
  have hst' : assocLookup w.stateHeap r = some st := hst
  have hout : w.onTypeScriptTextEditorClosed editorId
      = some ({ w.applyToState r TypeScriptTextEditorState.dispose with
                  textEditorStates :=
                    assocSet (w.applyToState r
                      TypeScriptTextEditorState.dispose).textEditorStates
                      editorId none },
              [LogEntry.stateCall r StateMethod.dispose st.disposed]) := by
    simp [TypeScriptWorkspace.onTypeScriptTextEditorClosed, href,
      isDisposed_of_stateAt hst]
  rw [hout]
  refine ⟨rfl, ?_, ?_, ?_, rfl⟩
  · simp [outcomeW, TypeScriptWorkspace.lookupStateRef, assocSet]
  · simp [outcomeW, assocSet]
  · simp [outcomeW, stateAt, assocLookup_heapSet, hst',
      TypeScriptTextEditorState.dispose]

/-- C7 at a concrete input: closing the opened first editor disposes its
state and unregisters identifier one. -/
theorem C7_closed_removes_entry_witness :
    (wOpenedOne.onTypeScriptTextEditorClosed 1).isSome = true
    ∧ (outcomeW (wOpenedOne.onTypeScriptTextEditorClosed 1)).lookupStateRef 1
        = none
    ∧ assocLookup
        (outcomeW (wOpenedOne.onTypeScriptTextEditorClosed 1)).textEditorStates
        1 = some none
    ∧ stateAt (outcomeW (wOpenedOne.onTypeScriptTextEditorClosed 1)) 0
        = some { stOpenedOne with disposed := true }
    ∧ outcomeLog (wOpenedOne.onTypeScriptTextEditorClosed 1)
        = [LogEntry.stateCall 0 StateMethod.dispose stOpenedOne.disposed] :=
  C7_closed_removes_entry wOpenedOne 1 0 stOpenedOne (by decide) (by decide)

/-- C8: for every guarded auto-complete command on a focused editor whose
state is registered: when no auto-complete session is in progress the key
binding is aborted, the callback is not invoked and the workspace is
unchanged; when a session is in progress, propagation is stopped and the
callback is invoked exactly once with that state (the log holds exactly
one state call). -/
theorem C8_auto_complete_guard (w : TypeScriptWorkspace) (ed : TextEditor)
    (command : AutoCompleteCommand) (r : Nat) (st : TypeScriptTextEditorState)
    (href : w.lookupStateRef ed.id = some r) (hst : stateAt w r = some st) :
    (st.autoCompleteInProgress = false →
      w.withAutoCompleteInProgress (some ed) command
        = some (w, [LogEntry.abortKeyBinding]))
    ∧ (st.autoCompleteInProgress = true →
      w.withAutoCompleteInProgress (some ed) command
        = some (w.applyToState r command.run,
                [LogEntry.stopPropagation,
                 LogEntry.stateCall r command.method st.disposed])
      ∧ (outcomeLog (w.withAutoCompleteInProgress (some ed) command)).countP
          (fun e => match e with
            | LogEntry.stateCall _ _ _ => true
            | _ => false) = 1) := by
  constructor
  · intro hac
    simp [TypeScriptWorkspace.withAutoCompleteInProgress, href, hst, hac]
  · intro hac
    have hout : w.withAutoCompleteInProgress (some ed) command
        = some (w.applyToState r command.run,
                [LogEntry.stopPropagation,
                 LogEntry.stateCall r command.method st.disposed]) := by
      simp [TypeScriptWorkspace.withAutoCompleteInProgress, href, hst, hac]
    refine ⟨hout, ?_⟩
    rw [hout]
    simp [outcomeLog, List.countP_cons]

/-- C8 at a concrete input: with a session in progress, select-next stops
propagation and invokes exactly one state call. -/
theorem C8_auto_complete_guard_witness :
    wSessionOne.withAutoCompleteInProgress (some editorHandleOne)
        AutoCompleteCommand.selectNext
      = some (wSessionOne.applyToState 0 AutoCompleteCommand.selectNext.run,
              [LogEntry.stopPropagation,
               LogEntry.stateCall 0 AutoCompleteCommand.selectNext.method
                 stSessionOne.disposed])
    ∧ (outcomeLog (wSessionOne.withAutoCompleteInProgress (some editorHandleOne)
          AutoCompleteCommand.selectNext)).countP
        (fun e => match e with
          | LogEntry.stateCall _ _ _ => true
          | _ => false) = 1 :=
  (C8_auto_complete_guard wSessionOne editorHandleOne
    AutoCompleteCommand.selectNext 0 stSessionOne (by decide) (by decide)).2
    (by decide)

/-- C9: when the toggle command fires on a recognized-language focused
editor whose state is registered: with a session in progress the session
is toggled off synchronously and no interval timer is started; with no
session in progress the toggle is deferred (the interval timer is started
and the state is unchanged for now). -/
theorem C9_toggle_immediate_when_session_active (w : TypeScriptWorkspace)
    (ed : TextEditor) (r : Nat) (st : TypeScriptTextEditorState)
    (hg : ed.grammarName = "TypeScript")
    (href : w.lookupStateRef ed.id = some r) (hst : stateAt w r = some st) :
    (st.autoCompleteInProgress = true →
      w.onToggleAutoComplete (some ed)
        = some (w.applyToState r TypeScriptTextEditorState.toggleAutoComplete,
                [LogEntry.stopPropagation,
                 LogEntry.stateCall r StateMethod.toggleAutoComplete st.disposed])
      ∧ (outcomeW (w.onToggleAutoComplete (some ed))).pendingToggleRefs
          = w.pendingToggleRefs
      ∧ stateAt (outcomeW (w.onToggleAutoComplete (some ed))) r
          = some { st with autoCompleteInProgress := false }
      ∧ LogEntry.intervalStarted r ∉ outcomeLog (w.onToggleAutoComplete (some ed)))
    ∧ (st.autoCompleteInProgress = false →
      w.onToggleAutoComplete (some ed)
        = some ({ w with pendingToggleRefs := w.pendingToggleRefs ++ [r] },
                [LogEntry.stopPropagation, LogEntry.intervalStarted r])
      ∧ stateAt (outcomeW (w.onToggleAutoComplete (some ed))) r = some st) := by
  have hst' : assocLookup w.stateHeap r = some st := hst
  constructor
  · intro hac
    have hout : w.onToggleAutoComplete (some ed)
        = some (w.applyToState r TypeScriptTextEditorState.toggleAutoComplete,
                [LogEntry.stopPropagation,
                 LogEntry.stateCall r StateMethod.toggleAutoComplete
                   st.disposed]) := by
      simp [TypeScriptWorkspace.onToggleAutoComplete, hg, href, hst, hac]
    refine ⟨hout, ?_, ?_, ?_⟩
    · rw [hout]
      simp [outcomeW]
    · rw [hout]
      simp [outcomeW, stateAt, assocLookup_heapSet, hst',
        TypeScriptTextEditorState.toggleAutoComplete, hac]
    · rw [hout]
      simp [outcomeLog]
  · intro hac
    have hout : w.onToggleAutoComplete (some ed)
        = some ({ w with pendingToggleRefs := w.pendingToggleRefs ++ [r] },
                [LogEntry.stopPropagation, LogEntry.intervalStarted r]) := by
      simp [TypeScriptWorkspace.onToggleAutoComplete, hg, href, hst, hac]
    refine ⟨hout, ?_⟩
    rw [hout]
    simp [outcomeW, stateAt, hst']

/-- C9 at a concrete input: toggling while a session is in progress turns
the session off synchronously without starting the interval timer. -/
theorem C9_toggle_immediate_when_session_active_witness :
    wSessionOne.onToggleAutoComplete (some editorHandleOne)
      = some (wSessionOne.applyToState 0
                TypeScriptTextEditorState.toggleAutoComplete,
              [LogEntry.stopPropagation,
               LogEntry.stateCall 0 StateMethod.toggleAutoComplete
                 stSessionOne.disposed])
    ∧ (outcomeW (wSessionOne.onToggleAutoComplete
        (some editorHandleOne))).pendingToggleRefs
        = wSessionOne.pendingToggleRefs
    ∧ stateAt (outcomeW (wSessionOne.onToggleAutoComplete
        (some editorHandleOne))) 0
        = some { stSessionOne with autoCompleteInProgress := false }
    ∧ LogEntry.intervalStarted 0 ∉ outcomeLog
        (wSessionOne.onToggleAutoComplete (some editorHandleOne)) :=
  (C9_toggle_immediate_when_session_active wSessionOne editorHandleOne 0
    stSessionOne rfl (by decide) (by decide)).1 (by decide)

/-- C10: withAutoCompleteInProgress reads autoCompleteInProgress on the
looked-up state with no existence check, so it crashes (none) whenever the
focused editor identifier is unregistered, and is total (some) whenever
the identifier is registered; onToggleAutoComplete likewise crashes past
its grammar check when the identifier is unregistered. -/
theorem C10_guard_requires_registered_state :
    (∀ (w : TypeScriptWorkspace) (ed : TextEditor)
        (command : AutoCompleteCommand),
      w.lookupStateRef ed.id = none →
      w.withAutoCompleteInProgress (some ed) command = none)
    ∧ (∀ (w : TypeScriptWorkspace) (ed : TextEditor)
        (command : AutoCompleteCommand) (r : Nat)
        (st : TypeScriptTextEditorState),
      w.lookupStateRef ed.id = some r → stateAt w r = some st →
      (w.withAutoCompleteInProgress (some ed) command).isSome = true)
    ∧ (∀ (w : TypeScriptWorkspace) (ed : TextEditor),
      ed.grammarName = "TypeScript" → w.lookupStateRef ed.id = none →
      w.onToggleAutoComplete (some ed) = none) := by
  refine ⟨?_, ?_, ?_⟩
  · intro w ed command href
    simp [TypeScriptWorkspace.withAutoCompleteInProgress, href]
  · intro w ed command r st href hst
    by_cases hac : st.autoCompleteInProgress = true
    · simp [TypeScriptWorkspace.withAutoCompleteInProgress, href, hst, hac]
    · simp only [Bool.not_eq_true] at hac
      simp [TypeScriptWorkspace.withAutoCompleteInProgress, href, hst, hac]
  · intro w ed hg href
    simp [TypeScriptWorkspace.onToggleAutoComplete, hg, href]

/-- C10 at a concrete input: with no editor ever opened the guard crashes,
and with the first editor opened and in session it succeeds. -/
theorem C10_guard_requires_registered_state_witness :
    initialWorkspace.withAutoCompleteInProgress (some editorHandleOne)
        AutoCompleteCommand.confirm = none
    ∧ (wSessionOne.withAutoCompleteInProgress (some editorHandleOne)
        AutoCompleteCommand.confirm).isSome = true :=
  ⟨C10_guard_requires_registered_state.1 initialWorkspace editorHandleOne
      AutoCompleteCommand.confirm (by decide),
   C10_guard_requires_registered_state.2.1 wSessionOne editorHandleOne
      AutoCompleteCommand.confirm 0 stSessionOne (by decide) (by decide)⟩
